import Mathlib

/-
Verification development for the qkd-etsi-api-c-wrapper library.

This file gives a shallow embedding, in Lean 4, of the parts of the C
sources that the checked properties speak about:

- the full simulated ETSI 004 stream backend (src/simulated.c):
  sim_open_connect, sim_get_key, sim_close, find_stream, allocate_stream,
  can_generate_key, generate_key;
- the simulated ETSI 014 vault backend get_key batch construction with its
  allocation/rollback behaviour (src/etsi014/backends/simulated.c,
  robust variant with the cleanup_error path);
- the QoS wire encoding/decoding of the embedded Python client
  (QKDClient.construct_qos / QKDClient.parse_qos inside
  src/etsi004/backends/python_client.c).

Modelling conventions:
- machine integers are Nat with explicit reductions mod 2 ^ 32 / 2 ^ 64
  where the C arithmetic can wrap;
- byte buffers are List Nat (each element one byte);
- the monotonic clock is passed explicitly as a parameter now;
- non-null pointer arguments are modelled as plain values, so the
  null-argument early returns of the C code are outside the model;
- heap allocation (for the vault backend) is modelled by an explicit
  allocation state: a serial counter plus the finite set of live
  allocation serials; an oracle (ok : Nat -> Bool) says which allocation
  attempt succeeds, mirroring malloc/strdup/calloc fallibility.
-/

/- 32-bit truncation, as performed by uint32_t arithmetic. -/
def w32 (n : Nat) : Nat := n % 4294967296

/- 64-bit truncation, as performed by uint64_t arithmetic. -/
def w64 (n : Nat) : Nat := n % 18446744073709551616

/- Wrapping uint64_t subtraction a - b. -/
def usub64 (a b : Nat) : Nat :=
  (a + 18446744073709551616 - w64 b) % 18446744073709551616

/- Little-endian 4-byte memory image of a uint32_t value, as hashed by
EVP_DigestUpdate(ctx, &index, sizeof(index)) on a little-endian target. -/
def toLE4 (n : Nat) : List Nat :=
  [n % 256, n / 256 % 256, n / 65536 % 256, n / 16777216 % 256]

/- Little-endian 8-byte memory image of a size_t value. -/
def toLE8 (n : Nat) : List Nat :=
  [n % 256, n / 256 % 256, n / 65536 % 256, n / 16777216 % 256,
   n / 4294967296 % 256, n / 1099511627776 % 256,
   n / 281474976710656 % 256, n / 72057594037927936 % 256]

/- Big-endian 4-byte encoding of a 32-bit value (struct.pack with !I). -/
def toBE4 (n : Nat) : List Nat :=
  [n / 16777216 % 256, n / 65536 % 256, n / 256 % 256, n % 256]

/- Big-endian decoding of a byte string (struct.unpack with !I on 4 bytes). -/
def fromBE4 (l : List Nat) : Nat :=
  l.foldl (fun acc b => acc * 256 + b) 0

/- Big-endian 8-byte encoding of the SHA-256 message bit length. -/
def toBE8 (n : Nat) : List Nat :=
  [n / 72057594037927936 % 256, n / 281474976710656 % 256,
   n / 1099511627776 % 256, n / 4294967296 % 256,
   n / 16777216 % 256, n / 65536 % 256, n / 256 % 256, n % 256]

/- Right rotation of a 32-bit word. -/
def rotr32 (k x : Nat) : Nat := w32 ((x >>> k) ||| (x <<< (32 - k)))

def sha_lsig0 (x : Nat) : Nat := (rotr32 7 x) ^^^ (rotr32 18 x) ^^^ (x >>> 3)

def sha_lsig1 (x : Nat) : Nat := (rotr32 17 x) ^^^ (rotr32 19 x) ^^^ (x >>> 10)

def sha_usig0 (x : Nat) : Nat := (rotr32 2 x) ^^^ (rotr32 13 x) ^^^ (rotr32 22 x)

def sha_usig1 (x : Nat) : Nat := (rotr32 6 x) ^^^ (rotr32 11 x) ^^^ (rotr32 25 x)

/- SHA-256 round constants. -/
def shaK : List Nat :=
  [1116352408, 1899447441, 3049323471, 3921009573, 961987163, 1508970993,
    2453635748, 2870763221, 3624381080, 310598401, 607225278, 1426881987,
    1925078388, 2162078206, 2614888103, 3248222580, 3835390401, 4022224774,
    264347078, 604807628, 770255983, 1249150122, 1555081692, 1996064986,
    2554220882, 2821834349, 2952996808, 3210313671, 3336571891, 3584528711,
    113926993, 338241895, 666307205, 773529912, 1294757372, 1396182291,
    1695183700, 1986661051, 2177026350, 2456956037, 2730485921, 2820302411,
    3259730800, 3345764771, 3516065817, 3600352804, 4094571909, 275423344,
    430227734, 506948616, 659060556, 883997877, 958139571, 1322822218,
    1537002063, 1747873779, 1955562222, 2024104815, 2227730452, 2361852424,
    2428436474, 2756734187, 3204031479, 3329325298]

/- SHA-256 initial hash value. -/
def shaH0 : List Nat :=
  [1779033703, 3144134277, 1013904242, 2773480762, 1359893119, 2600822924,
    528734635, 1541459225]

/- Extend the 16-word message schedule by n further words. -/
def shaExtend : Nat → List Nat → List Nat
  | 0, w => w
  | n + 1, w =>
      shaExtend n (w ++ [w32 (sha_lsig1 (w.getD (w.length - 2) 0) +
        w.getD (w.length - 7) 0 + sha_lsig0 (w.getD (w.length - 15) 0) +
        w.getD (w.length - 16) 0)])

/- One SHA-256 compression round on the eight working words. -/
def shaRound (st : List Nat) (wk : Nat × Nat) : List Nat :=
  match st with
  | [a, b, c, d, e, f, g, h] =>
      let ch := (e &&& f) ^^^ ((e ^^^ 4294967295) &&& g)
      let maj := (a &&& b) ^^^ (a &&& c) ^^^ (b &&& c)
      let t1 := w32 (h + sha_usig1 e + ch + wk.1 + wk.2)
      let t2 := w32 (sha_usig0 a + maj)
      [w32 (t1 + t2), a, b, c, w32 (d + t1), e, f, g]
  | other => other

/- Compress one 16-word block into the running hash state. -/
def shaCompress (h : List Nat) (block : List Nat) : List Nat :=
  let w := shaExtend 48 block
  let fin := (w.zip shaK).foldl shaRound h
  (h.zip fin).map (fun p => w32 (p.1 + p.2))

/- SHA-256 padding of a byte message. -/
def shaPad (msg : List Nat) : List Nat :=
  let k := (64 + 55 - msg.length % 64) % 64
  msg ++ [128] ++ List.replicate k 0 ++ toBE8 (8 * msg.length)

/- Split a byte list into 64-byte chunks (fuel-driven so that it reduces). -/
def chunks64 : Nat → List Nat → List (List Nat)
  | 0, _ => []
  | _, [] => []
  | fuel + 1, l => l.take 64 :: chunks64 fuel (l.drop 64)

/- The 16 big-endian 32-bit words of a 64-byte block. -/
def words16 (block : List Nat) : List Nat :=
  (List.range 16).map (fun i => fromBE4 ((block.drop (4 * i)).take 4))

/- Full SHA-256 digest of a byte message, as a 32-byte list. -/
def sha256 (msg : List Nat) : List Nat :=
  let padded := shaPad msg
  let blocks := chunks64 (padded.length) padded
  let hFin := blocks.foldl (fun h b => shaCompress h (words16 b)) shaH0
  (hFin.map toBE4).flatten

/- ETSI 004 status codes (include/api.h). -/
def QKD_STATUS_SUCCESS : Nat := 0

def QKD_STATUS_PEER_DISCONNECTED : Nat := 1

def QKD_STATUS_INSUFFICIENT_KEY : Nat := 2

def QKD_STATUS_PEER_NOT_CONNECTED : Nat := 3

def QKD_STATUS_NO_CONNECTION : Nat := 4

def QKD_STATUS_KSID_IN_USE : Nat := 5

def QKD_STATUS_TIMEOUT : Nat := 6

def QKD_STATUS_QOS_NOT_MET : Nat := 7

def QKD_STATUS_METADATA_SIZE_ERROR : Nat := 8

/- ETSI 014 response codes (include/etsi014/api.h). -/
def QKD_STATUS_OK : Nat := 200

def QKD_STATUS_BAD_REQUEST : Nat := 400

def QKD_STATUS_UNAUTHORIZED : Nat := 401

def QKD_STATUS_SERVER_ERROR : Nat := 503

/- QoS parameter block (struct qkd_qos_s, include/api.h). -/
structure qkd_qos_s where
  Key_chunk_size : Nat
  Max_bps : Nat
  Min_bps : Nat
  jitter : Nat
  priority : Nat
  timeout : Nat
  TTL : Nat
deriving DecidableEq, Repr

/- One slot of the fixed-size session table (struct stream_state,
src/simulated.c). The per-stream key-block array is never read or written
by the three modelled operations except for the num_keys counter, so only
that counter is kept. -/
structure stream_state where
  key_id : List Nat
  qos : qkd_qos_s
  in_use : Bool
  is_initiator : Bool
  last_index : Nat
  creation_time : Nat
  pending_close : Bool
  num_keys : Nat
deriving DecidableEq, Repr

/- A zeroed table slot: the static initial value of the streams array, and
also the result of the memset performed by sim_close. -/
def zero_stream : stream_state :=
  ⟨List.replicate 16 0, ⟨0, 0, 0, 0, 0, 0, 0⟩, false, false, 0, 0, false, 0⟩

/- The fixed KSID handed out to initiators (test_key_uuid, src/simulated.c). -/
def test_key_uuid : List Nat :=
  [0xa1, 0xb2, 0xc3, 0xd4, 0xe5, 0xf6, 0x47, 0x58,
   0x59, 0x6a, 0x7b, 0x8c, 0x9d, 0xae, 0xbf, 0xc0]

/- Linear scan for an in-use slot holding the given 16-byte KSID,
returning the first matching index (find_stream, src/simulated.c). -/
def find_stream (streams : List stream_state) (key_id : List Nat) : Option Nat :=
  match streams with
  | [] => none
  | st :: rest =>
      if st.in_use = true ∧ st.key_id = key_id then some 0
      else (find_stream rest key_id).map (· + 1)

/- Linear scan for the first free slot (allocate_stream, src/simulated.c). -/
def allocate_stream (streams : List stream_state) : Option Nat :=
  match streams with
  | [] => none
  | st :: rest =>
      if st.in_use = false then some 0
      else (allocate_stream rest).map (· + 1)

/- Deterministic simulated key for an index: SHA-256 of the 4-byte memory
image of the uint32_t index (generate_key, src/simulated.c). -/
def generate_key (index : Nat) : List Nat := sha256 (toLE4 index)

/- Maximum number of deliverable keys computed by can_generate_key:
(elapsed_ms * Max_bps) / (8000 * Key_chunk_size), with the numerator as
uint64_t arithmetic and the denominator as uint32_t arithmetic. -/
def max_possible_keys (stream : stream_state) (now : Nat) : Nat :=
  w64 (usub64 now stream.creation_time * stream.qos.Max_bps) /
    w32 (8000 * stream.qos.Key_chunk_size)

/- Rate-limit admission test (can_generate_key, src/simulated.c). -/
def can_generate_key (stream : stream_state) (now : Nat)
    (requested_index : Nat) : Bool :=
  decide (requested_index < max_possible_keys stream now)

/- Result of sim_open_connect: the returned value, the value stored through
the status out-parameter, the session table after the call, and the
contents of the caller's key_stream_id buffer after the call. -/
structure open_result where
  ret : Nat
  status : Nat
  streams : List stream_state
  key_stream_id : List Nat
deriving DecidableEq, Repr

/- OPEN_CONNECT of the full simulated stream backend
(sim_open_connect, src/simulated.c). A first KSID byte of zero selects the
initiator path; otherwise the responder path first checks for a KSID
collision. The slot is initialised before the QoS check, so a QoS failure
leaves the slot allocated. -/
def sim_open_connect (streams : List stream_state) (now : Nat)
    (qos : qkd_qos_s) (key_stream_id : List Nat) : open_result :=
  if key_stream_id.headD 0 = 0 then
    match allocate_stream streams with
    | none =>
        ⟨QKD_STATUS_NO_CONNECTION, QKD_STATUS_NO_CONNECTION, streams,
          key_stream_id⟩
    | some slot =>
        let st0 := streams.getD slot zero_stream
        let st := { st0 with
          key_id := test_key_uuid
          is_initiator := true
          in_use := true
          last_index := 0
          creation_time := now
          num_keys := 0
          qos := qos }
        let streams1 := streams.set slot st
        if qos.Min_bps > qos.Max_bps then
          ⟨QKD_STATUS_QOS_NOT_MET, QKD_STATUS_QOS_NOT_MET, streams1,
            test_key_uuid⟩
        else
          ⟨QKD_STATUS_PEER_DISCONNECTED, QKD_STATUS_PEER_DISCONNECTED,
            streams1, test_key_uuid⟩
  else
    match find_stream streams key_stream_id with
    | some _ =>
        ⟨QKD_STATUS_KSID_IN_USE, QKD_STATUS_KSID_IN_USE, streams,
          key_stream_id⟩
    | none =>
        match allocate_stream streams with
        | none =>
            ⟨QKD_STATUS_NO_CONNECTION, QKD_STATUS_NO_CONNECTION, streams,
              key_stream_id⟩
        | some slot =>
            let st0 := streams.getD slot zero_stream
            let st := { st0 with
              key_id := key_stream_id
              is_initiator := false
              in_use := true
              last_index := 0
              creation_time := now
              num_keys := 0
              qos := qos }
            let streams1 := streams.set slot st
            if qos.Min_bps > qos.Max_bps then
              ⟨QKD_STATUS_QOS_NOT_MET, QKD_STATUS_QOS_NOT_MET, streams1,
                key_stream_id⟩
            else
              ⟨QKD_STATUS_SUCCESS, QKD_STATUS_SUCCESS, streams1,
                key_stream_id⟩

/- Result of sim_get_key: return value, status out-parameter, table after
the call, bytes written to the caller's key buffer (none when untouched),
the metadata size field after the call (none when no metadata structure was
passed), and the bytes written into the metadata buffer. -/
structure get_key_result where
  ret : Nat
  status : Nat
  streams : List stream_state
  key_buffer : Option (List Nat)
  metadata_size : Option Nat
  metadata_buffer : Option (List Nat)
deriving DecidableEq, Repr

/- GET_KEY of the full simulated stream backend (sim_get_key,
src/simulated.c). The metadata argument is the caller's Metadata_size
capacity, or none when no metadata structure is supplied. On the metadata
path the backend needs sizeof(uint32_t) * 2 = 8 bytes and writes the
stream age and a zero hop count as two native little-endian uint32_t. -/
def sim_get_key (streams : List stream_state) (now : Nat)
    (key_stream_id : List Nat) (index : Nat) (metadata : Option Nat) :
    get_key_result :=
  match find_stream streams key_stream_id with
  | none =>
      ⟨QKD_STATUS_NO_CONNECTION, QKD_STATUS_NO_CONNECTION, streams, none,
        metadata, none⟩
  | some slot =>
      let stream := streams.getD slot zero_stream
      if can_generate_key stream now index then
        let key := generate_key index
        let streams1 := streams.set slot { stream with last_index := index }
        match metadata with
        | some cap =>
            if 0 < cap then
              if cap < 8 then
                ⟨QKD_STATUS_METADATA_SIZE_ERROR,
                  QKD_STATUS_METADATA_SIZE_ERROR, streams1, some key,
                  some 8, none⟩
              else
                ⟨QKD_STATUS_SUCCESS, QKD_STATUS_SUCCESS, streams1, some key,
                  some 8,
                  some (toLE4 (w32 (usub64 now stream.creation_time)) ++
                    toLE4 0)⟩
            else
              ⟨QKD_STATUS_SUCCESS, QKD_STATUS_SUCCESS, streams1, some key,
                some cap, none⟩
        | none =>
            ⟨QKD_STATUS_SUCCESS, QKD_STATUS_SUCCESS, streams1, some key,
              none, none⟩
      else
        ⟨QKD_STATUS_INSUFFICIENT_KEY, QKD_STATUS_INSUFFICIENT_KEY, streams,
          none, metadata, none⟩

/- Result of sim_close: return value, status out-parameter and the table
after the call. -/
structure close_result where
  ret : Nat
  status : Nat
  streams : List stream_state
deriving DecidableEq, Repr

/- CLOSE of the full simulated stream backend (sim_close, src/simulated.c):
below the TTL the slot is only marked pending_close; at or beyond the TTL
the slot is zeroed and freed. -/
def sim_close (streams : List stream_state) (now : Nat)
    (key_stream_id : List Nat) : close_result :=
  match find_stream streams key_stream_id with
  | none => ⟨QKD_STATUS_NO_CONNECTION, QKD_STATUS_NO_CONNECTION, streams⟩
  | some slot =>
      let st := streams.getD slot zero_stream
      let elapsed_seconds := usub64 now st.creation_time / 1000
      if elapsed_seconds < st.qos.TTL then
        ⟨QKD_STATUS_SUCCESS, QKD_STATUS_SUCCESS,
          streams.set slot { st with pending_close := true }⟩
      else
        ⟨QKD_STATUS_SUCCESS, QKD_STATUS_SUCCESS,
          streams.set slot zero_stream⟩

/- Key request (qkd_key_request_t, include/etsi014/api.h): the number and
size fields are int32_t, kept as Int. The SAE/extension fields are never
read by the simulated backend and are omitted. -/
structure qkd_key_request where
  number : Int
  size : Int
deriving DecidableEq, Repr

/- One returned key entry (qkd_key_t): the allocation serials of its
key_ID string and key buffer, together with the bytes they hold. -/
structure qkd_key where
  key_ID_alloc : Nat
  key_ID : List Nat
  key_alloc : Nat
  key : List Nat
deriving DecidableEq, Repr

/- Key container (qkd_key_container_t). A field is none when the C call
returned without assigning it (keys = NULL / key_count untouched). -/
structure qkd_key_container where
  keys : Option (List qkd_key)
  key_count : Option Nat
deriving DecidableEq, Repr

/- Explicit heap-allocation state: the next allocation serial and the set
of serials currently live. Serials are unique, so a Finset is a faithful
image of the multiset of live allocations. -/
structure alloc_state where
  next : Nat
  live : Finset Nat
deriving DecidableEq

/- One allocation attempt: the oracle ok decides whether this attempt
(malloc / strdup / calloc) succeeds; the serial advances either way. -/
def alloc (ok : Nat → Bool) (a : alloc_state) : Option Nat × alloc_state :=
  if ok a.next then (some a.next, ⟨a.next + 1, insert a.next a.live⟩)
  else (none, ⟨a.next + 1, a.live⟩)

/- Releasing one allocation (free). -/
def dealloc (n : Nat) (a : alloc_state) : alloc_state :=
  ⟨a.next, a.live.erase n⟩

/- Decimal digits of n, least significant first. -/
def digitsLE (n : Nat) : List Nat :=
  if n < 10 then [n] else n % 10 :: digitsLE (n / 10)
termination_by n
decreasing_by exact Nat.div_lt_self (by omega) (by omega)

/- ASCII bytes of the decimal representation of n, as printed by the
format %zu. -/
def decimal_repr (n : Nat) : List Nat :=
  (digitsLE n).reverse.map (fun d => 48 + d)

/- Bytes of the identifier produced by snprintf(.., 37, "KEY_%zu", c)
(sim_get_key, src/etsi014/backends/simulated.c); no truncation occurs for
any counter below 10 ^ 32, which covers every size_t value. -/
def key_id_bytes (c : Nat) : List Nat :=
  [75, 69, 89, 95] ++ decimal_repr c

/- Key material written by generate_simulated_key into key_store: SHA-256
of the 8-byte memory image of the size_t counter. -/
def generate_simulated_key (stored_key_count : Nat) : List Nat :=
  sha256 (toLE8 stored_key_count)

/- Full 256-byte key_store buffer for a counter value: the 32-byte digest
followed by the zero bytes the statically initialised buffer keeps. -/
def stored_key_bytes (stored_key_count : Nat) : List Nat :=
  generate_simulated_key stored_key_count ++ List.replicate 224 0

/- The allocation serials owned by a list of container entries. -/
def key_allocs : List qkd_key → Finset Nat
  | [] => ∅
  | e :: rest => insert e.key_ID_alloc (insert e.key_alloc (key_allocs rest))

/- Rollback loop of the cleanup_error path: for every already-built entry,
free its key_ID and then its key. -/
def cleanup_keys (acc : List qkd_key) (a : alloc_state) : alloc_state :=
  acc.foldl (fun a e => dealloc e.key_alloc (dealloc e.key_ID_alloc a)) a

/- Batch-construction loop of sim_get_key
(src/etsi014/backends/simulated.c): per entry, write the key_store slot for
the current counter, strdup the identifier, malloc the key buffer and copy
key_size bytes of the stored key. Either allocation failing triggers the
rollback of all previously built entries. -/
def sim_get_key_loop (ok : Nat → Bool) (key_size : Nat) :
    Nat → Nat → List qkd_key → alloc_state →
    Option (List qkd_key) × Nat × alloc_state
  | 0, c, acc, a => (some acc, c, a)
  | n + 1, c, acc, a =>
      match alloc ok a with
      | (none, a1) => (none, c, cleanup_keys acc a1)
      | (some idSer, a1) =>
          match alloc ok a1 with
          | (none, a2) => (none, c, cleanup_keys acc (dealloc idSer a2))
          | (some keySer, a2) =>
              sim_get_key_loop ok key_size n (c + 1)
                (acc ++ [⟨idSer, key_id_bytes c, keySer,
                  (stored_key_bytes c).take key_size⟩]) a2

/- Result of the vault-backend sim_get_key: response code, container handed
back to the caller, key_store counter after the call, allocation state
after the call. -/
structure get_key_014_result where
  status : Nat
  container : qkd_key_container
  stored_key_count : Nat
  alloc_st : alloc_state
deriving DecidableEq

/- GET_KEY of the simulated vault backend (sim_get_key,
src/etsi014/backends/simulated.c, robust variant): the entry count
defaults to 1 when the request is absent or its number is not positive,
the key size defaults to DEFAULT_KEY_SIZE = 256 likewise; the container
key array is calloc-ed, then the batch loop runs; an entry allocation
failure rolls everything back, frees the array and hands back a container
with keys = NULL and key_count = 0. -/
/- The num_keys local of sim_get_key: request number when positive, else
the default 1. -/
def num_keys_req (request : Option qkd_key_request) : Int :=
  match request with
  | some r => if r.number > 0 then r.number else 1
  | none => 1

/- The key_size local of sim_get_key: request size when positive, else
DEFAULT_KEY_SIZE = 256. -/
def key_size_req (request : Option qkd_key_request) : Nat :=
  match request with
  | some r => if r.size > 0 then r.size.toNat else 256
  | none => 256

def sim_get_key_014 (ok : Nat → Bool) (stored_key_count : Nat)
    (request : Option qkd_key_request) (a : alloc_state) :
    get_key_014_result :=
  match alloc ok a with
  | (none, a1) => ⟨QKD_STATUS_SERVER_ERROR, ⟨none, none⟩, stored_key_count, a1⟩
  | (some arrSer, a1) =>
      match sim_get_key_loop ok (key_size_req request)
        (num_keys_req request).toNat stored_key_count [] a1 with
      | (some entries, c1, a2) =>
          ⟨QKD_STATUS_OK, ⟨some entries, some (num_keys_req request).toNat⟩,
            c1, a2⟩
      | (none, c1, a2) =>
          ⟨QKD_STATUS_SERVER_ERROR, ⟨none, some 0⟩, c1, dealloc arrSer a2⟩

/- QoS dictionary of the embedded Python client, with the mime type kept as
its UTF-8 byte string. -/
structure qos_wire where
  Key_chunk_size : Nat
  Max_bps : Nat
  Min_bps : Nat
  Jitter : Nat
  Priority : Nat
  Timeout : Nat
  TTL : Nat
  Metadata_mimetype : List Nat
deriving DecidableEq, Repr

/- Zero-padding of the mime-type bytes to METADATA_MIMETYPE_SIZE = 256
(the ljust call in QKDClient.construct_qos). -/
def ljust256 (l : List Nat) : List Nat :=
  l ++ List.replicate (256 - l.length) 0

/- QKDClient.construct_qos: seven big-endian 32-bit fields in order, then
the zero-padded mime-type bytes. -/
def construct_qos (q : qos_wire) : List Nat :=
  toBE4 q.Key_chunk_size ++ toBE4 q.Max_bps ++ toBE4 q.Min_bps ++
    toBE4 q.Jitter ++ toBE4 q.Priority ++ toBE4 q.Timeout ++ toBE4 q.TTL ++
    ljust256 q.Metadata_mimetype

/- Python str.strip with the single character NUL: remove zero bytes from
both ends of the byte string. -/
def strip_nul (l : List Nat) : List Nat :=
  (((l.dropWhile (fun b => b == 0)).reverse.dropWhile
      (fun b => b == 0))).reverse

/- QKDClient.parse_qos: unpack the seven big-endian fields from the first
28 bytes and strip NUL bytes from the decoded remainder. -/
def parse_qos (data : List Nat) : qos_wire :=
  { Key_chunk_size := fromBE4 ((data.drop 0).take 4)
    Max_bps := fromBE4 ((data.drop 4).take 4)
    Min_bps := fromBE4 ((data.drop 8).take 4)
    Jitter := fromBE4 ((data.drop 12).take 4)
    Priority := fromBE4 ((data.drop 16).take 4)
    Timeout := fromBE4 ((data.drop 20).take 4)
    TTL := fromBE4 ((data.drop 24).take 4)
    Metadata_mimetype := strip_nul (data.drop 28) }

/- Arithmetic and list helper lemmas. -/

theorem usub64_eq_sub {a b : Nat} (hle : b ≤ a)
    (ha : a < 18446744073709551616) : usub64 a b = a - b := by
  unfold usub64 w64
  have hb : b % 18446744073709551616 = b := Nat.mod_eq_of_lt (by omega)
  rw [hb]
  omega

theorem fromBE4_toBE4 {n : Nat} (h : n < 4294967296) :
    fromBE4 (toBE4 n) = n := by
  simp [fromBE4, toBE4, List.foldl]
  omega

/- Value of a little-endian decimal digit list. -/
def digit_val : List Nat → Nat
  | [] => 0
  | d :: rest => d + 10 * digit_val rest

theorem digit_val_digitsLE (n : Nat) : digit_val (digitsLE n) = n := by
  induction n using Nat.strong_induction_on with
  | _ n ih =>
    rw [digitsLE]
    by_cases h : n < 10
    · simp [h, digit_val]
    · simp [h, digit_val]
      rw [ih (n / 10) (Nat.div_lt_self (by omega) (by omega))]
      omega

theorem digitsLE_injective : Function.Injective digitsLE := by
  intro a b h
  have ha := digit_val_digitsLE a
  have hb := digit_val_digitsLE b
  rw [h] at ha
  exact ha.symm.trans hb

theorem decimal_repr_injective : Function.Injective decimal_repr := by
  intro a b h
  unfold decimal_repr at h
  have h1 : (digitsLE a).reverse = (digitsLE b).reverse :=
    List.map_injective_iff.mpr (fun x y hxy => by omega) h
  exact digitsLE_injective (List.reverse_injective h1)

theorem key_id_bytes_injective : Function.Injective key_id_bytes := by
  intro a b h
  unfold key_id_bytes at h
  exact decimal_repr_injective (List.append_cancel_left h)

theorem key_id_bytes_ne_nil (c : Nat) : key_id_bytes c ≠ [] := by
  simp [key_id_bytes]

theorem getD_set_self {α} {l : List α} {i : Nat} {a d : α}
    (h : i < l.length) : (l.set i a).getD i d = a := by
  simp [List.getD_eq_getElem?_getD, List.getElem?_set_self, h]

theorem getD_set_ne {α} {l : List α} {i j : Nat} {a d : α} (h : i ≠ j) :
    (l.set i a).getD j d = l.getD j d := by
  simp [List.getD_eq_getElem?_getD, List.getElem?_set_ne h]

/- Characterisation lemmas for the table scans. -/

theorem find_stream_some_spec {l : List stream_state} {k : List Nat}
    {i : Nat} (h : find_stream l k = some i) :
    i < l.length ∧ (l.getD i zero_stream).in_use = true ∧
      (l.getD i zero_stream).key_id = k := by
  induction l generalizing i with
  | nil => simp [find_stream] at h
  | cons st rest ih =>
    rw [find_stream] at h
    by_cases hc : st.in_use = true ∧ st.key_id = k
    · rw [if_pos hc] at h
      cases h
      simpa using hc
    · rw [if_neg hc] at h
      rw [Option.map_eq_some'] at h
      obtain ⟨j, hj, hji⟩ := h
      obtain ⟨h1, h2, h3⟩ := ih hj
      subst hji
      exact ⟨by simpa using h1, by simpa using h2, by simpa using h3⟩

theorem find_stream_none_spec {l : List stream_state} {k : List Nat}
    (h : find_stream l k = none) :
    ∀ st ∈ l, ¬(st.in_use = true ∧ st.key_id = k) := by
  induction l with
  | nil => simp
  | cons st rest ih =>
    rw [find_stream] at h
    by_cases hc : st.in_use = true ∧ st.key_id = k
    · rw [if_pos hc] at h
      cases h
    · rw [if_neg hc] at h
      rw [Option.map_eq_none'] at h
      intro st' hmem
      rcases List.mem_cons.mp hmem with h0 | h0
      · subst h0; exact hc
      · exact ih h st' h0

theorem find_stream_ne_none_of_mem {l : List stream_state} {k : List Nat}
    {st : stream_state} (hmem : st ∈ l) (hu : st.in_use = true)
    (hk : st.key_id = k) : find_stream l k ≠ none := by
  intro h
  exact (find_stream_none_spec h st hmem) ⟨hu, hk⟩

theorem allocate_stream_spec {l : List stream_state} {i : Nat}
    (h : allocate_stream l = some i) :
    i < l.length ∧ (l.getD i zero_stream).in_use = false := by
  induction l generalizing i with
  | nil => simp [allocate_stream] at h
  | cons st rest ih =>
    rw [allocate_stream] at h
    by_cases hc : st.in_use = false
    · rw [if_pos hc] at h
      cases h
      simpa using hc
    · rw [if_neg hc] at h
      rw [Option.map_eq_some'] at h
      obtain ⟨j, hj, hji⟩ := h
      obtain ⟨h1, h2⟩ := ih hj
      subst hji
      exact ⟨by simpa using h1, by simpa using h2⟩

theorem find_stream_set_eq {l : List stream_state} {k : List Nat} {i : Nat}
    {st : stream_state} (h : find_stream l k = some i)
    (hu : st.in_use = true) (hk : st.key_id = k) :
    find_stream (l.set i st) k = some i := by
  induction l generalizing i with
  | nil => simp [find_stream] at h
  | cons hd rest ih =>
    rw [find_stream] at h
    by_cases hc : hd.in_use = true ∧ hd.key_id = k
    · rw [if_pos hc] at h
      cases h
      simp only [List.set_cons_zero, find_stream]
      rw [if_pos ⟨hu, hk⟩]
    · rw [if_neg hc] at h
      rw [Option.map_eq_some'] at h
      obtain ⟨j, hj, hji⟩ := h
      subst hji
      simp only [List.set_cons_succ, find_stream]
      rw [if_neg hc, ih hj]
      rfl

theorem find_stream_none_set {l : List stream_state} {k : List Nat}
    {i : Nat} {st : stream_state} (h : find_stream l k = none)
    (hst : ¬(st.in_use = true ∧ st.key_id = k)) :
    find_stream (l.set i st) k = none := by
  induction l generalizing i with
  | nil => simp [find_stream]
  | cons hd rest ih =>
    rw [find_stream] at h
    by_cases hc : hd.in_use = true ∧ hd.key_id = k
    · rw [if_pos hc] at h
      cases h
    · rw [if_neg hc, Option.map_eq_none'] at h
      cases i with
      | zero =>
        simp only [List.set_cons_zero, find_stream]
        rw [if_neg hst, h]
        rfl
      | succ j =>
        simp only [List.set_cons_succ, find_stream]
        rw [if_neg hc, ih h]
        rfl

/- Concrete fixtures used by witnesses and counterexamples. -/

def zero_table : List stream_state := List.replicate 16 zero_stream

def cex_qos : qkd_qos_s := ⟨32, 40000, 5000, 10, 0, 5000, 3600⟩

def c1_qos : qkd_qos_s := ⟨32, 256000, 0, 0, 0, 0, 3600⟩

def c1_ksid : List Nat := [1, 0, 0, 0, 0, 0, 0, 0, 0, 0, 0, 0, 0, 0, 0, 0]

def c1_stream : stream_state := ⟨c1_ksid, c1_qos, true, true, 0, 0, false, 0⟩

def c1_table : List stream_state := c1_stream :: List.replicate 15 zero_stream

/-- C1. Amended rate-limit admission: for an open session, GET_KEY on the
simulated stream backend fails with INSUFFICIENT_KEY exactly when the
requested index is greater than or equal to
floor(elapsed_ms * Max_bps / (8000 * Key_chunk_size)), and delivers the
key with SUCCESS when the index is strictly below that bound (the bound
itself is already rejected, so the largest deliverable index is the bound
minus one). -/
theorem sim_get_key_rate_admission
    (streams : List stream_state) (now : Nat) (ksid : List Nat)
    (index slot : Nat)
    (hfind : find_stream streams ksid = some slot)
    (_hbps : 0 < (streams.getD slot zero_stream).qos.Max_bps)
    (_hchunk : 0 < (streams.getD slot zero_stream).qos.Key_chunk_size) :
    (max_possible_keys (streams.getD slot zero_stream) now ≤ index →
      (sim_get_key streams now ksid index none).ret =
        QKD_STATUS_INSUFFICIENT_KEY) ∧
    (index < max_possible_keys (streams.getD slot zero_stream) now →
      (sim_get_key streams now ksid index none).ret = QKD_STATUS_SUCCESS ∧
      (sim_get_key streams now ksid index none).key_buffer =
        some (generate_key index)) := by
  constructor
  · intro hge
    have hc : can_generate_key (streams.getD slot zero_stream) now index
        = false := by
      simp only [can_generate_key, decide_eq_false_iff_not]
      omega
    simp only [sim_get_key, hfind]
    rw [hc]
    simp
  · intro hlt
    have hc : can_generate_key (streams.getD slot zero_stream) now index
        = true := by
      simp only [can_generate_key, decide_eq_true_eq]
      exact hlt
    simp only [sim_get_key, hfind]
    rw [hc]
    simp

/-- C1 witness: on a session created at time 0 with Key_chunk_size 32 and
Max_bps 256000, at time 5 the bound is 5; index 7 is rejected and index 3
delivered. -/
theorem sim_get_key_rate_admission_witness :
    (sim_get_key c1_table 5 c1_ksid 7 none).ret =
      QKD_STATUS_INSUFFICIENT_KEY ∧
    (sim_get_key c1_table 5 c1_ksid 3 none).ret = QKD_STATUS_SUCCESS := by
  refine ⟨(sim_get_key_rate_admission c1_table 5 c1_ksid 7 0 (by decide)
    (by decide) (by decide)).1 (by decide), ?_⟩
  exact ((sim_get_key_rate_admission c1_table 5 c1_ksid 3 0 (by decide)
    (by decide) (by decide)).2 (by decide)).1

/-- C1 counterexample: at time 5 the computed bound is 5, so the index 5 —
which does not exceed the bound the claim calls the maximum deliverable
index — is nevertheless refused with INSUFFICIENT_KEY, refuting the claim
that every index up to and including the bound is delivered. -/
theorem sim_get_key_rate_bound_counterexample :
    max_possible_keys (c1_table.getD 0 zero_stream) 5 = 5 ∧
    find_stream c1_table c1_ksid = some 0 ∧
    (sim_get_key c1_table 5 c1_ksid 5 none).ret =
      QKD_STATUS_INSUFFICIENT_KEY ∧
    (sim_get_key c1_table 5 c1_ksid 5 none).ret ≠ QKD_STATUS_SUCCESS := by
  decide

def c2_ksid : List Nat := [0, 1, 0, 0, 0, 0, 0, 0, 0, 0, 0, 0, 0, 0, 0, 0]

def c2_used_ksid : List Nat := [9, 0, 0, 0, 0, 0, 0, 0, 0, 0, 0, 0, 0, 0, 0, 0]

def c2_used_table : List stream_state :=
  ⟨c2_used_ksid, cex_qos, true, false, 0, 0, false, 0⟩ ::
    List.replicate 15 zero_stream

/-- C2. Amended responder semantics: for an OPEN_CONNECT call whose KSID
has a non-zero first byte (the codepath that classifies a call as a
responder), an existing session under that exact KSID yields KSID_IN_USE
with the table unchanged; with no such session and a free slot, a new
session tagged with the given KSID is allocated; and after a zero-KSID
initiator open returned the fixed non-zero KSID, a responder open with
that exact KSID returns KSID_IN_USE. -/
theorem sim_open_connect_responder
    (streams : List stream_state) (now : Nat) (qos : qkd_qos_s)
    (ksid : List Nat) (hresp : ksid.headD 0 ≠ 0) :
    (∀ i, find_stream streams ksid = some i →
      (sim_open_connect streams now qos ksid).ret = QKD_STATUS_KSID_IN_USE ∧
      (sim_open_connect streams now qos ksid).streams = streams) ∧
    (∀ slot, find_stream streams ksid = none →
      allocate_stream streams = some slot →
      ((sim_open_connect streams now qos ksid).streams.getD slot
          zero_stream).key_id = ksid ∧
      ((sim_open_connect streams now qos ksid).streams.getD slot
          zero_stream).in_use = true ∧
      ((sim_open_connect streams now qos ksid).streams.getD slot
          zero_stream).is_initiator = false) ∧
    (∀ slot, allocate_stream streams = some slot →
      (sim_open_connect streams now qos
          (List.replicate 16 0)).key_stream_id = test_key_uuid ∧
      ∀ now2 qos2,
        (sim_open_connect
          (sim_open_connect streams now qos (List.replicate 16 0)).streams
          now2 qos2 test_key_uuid).ret = QKD_STATUS_KSID_IN_USE) := by
  refine ⟨?_, ?_, ?_⟩
  · intro i hi
    simp only [sim_open_connect, hi]
    rw [if_neg hresp]
    simp
  · intro slot hnone halloc
    have hlt := (allocate_stream_spec halloc).1
    simp only [sim_open_connect, hnone, halloc]
    rw [if_neg hresp]
    by_cases hq : qos.Min_bps > qos.Max_bps
    · rw [if_pos hq]
      simp only [getD_set_self hlt]
      exact ⟨trivial, trivial, trivial⟩
    · rw [if_neg hq]
      simp only [getD_set_self hlt]
      exact ⟨trivial, trivial, trivial⟩
  · intro slot halloc
    have hlt := (allocate_stream_spec halloc).1
    have hzero : (List.replicate 16 (0 : Nat)).headD 0 = 0 := by decide
    constructor
    · by_cases hq : qos.Min_bps > qos.Max_bps
      · simp [sim_open_connect, hzero, halloc, hq]
      · simp [sim_open_connect, hzero, halloc, hq]
    · intro now2 qos2
      have hstep :
          ∃ st1, (sim_open_connect streams now qos
            (List.replicate 16 0)).streams = streams.set slot st1 ∧
            st1.in_use = true ∧ st1.key_id = test_key_uuid := by
        refine ⟨{ streams.getD slot zero_stream with
          key_id := test_key_uuid
          is_initiator := true
          in_use := true
          last_index := 0
          creation_time := now
          num_keys := 0
          qos := qos }, ?_, rfl, rfl⟩
        by_cases hq : qos.Min_bps > qos.Max_bps
        · simp [sim_open_connect, hzero, halloc, hq]
        · simp [sim_open_connect, hzero, halloc, hq]
      obtain ⟨st1, hset, hu, hk⟩ := hstep
      rw [hset]
      have hmem : st1 ∈ streams.set slot st1 :=
        List.mem_set streams slot hlt st1
      have hne := find_stream_ne_none_of_mem hmem hu hk
      cases hf : find_stream (streams.set slot st1) test_key_uuid with
      | none => exact absurd hf hne
      | some j =>
        simp only [sim_open_connect, hf]
        rw [if_neg (show ¬test_key_uuid.headD 0 = 0 by decide)]

/-- C2 counterexample: the KSID with bytes 0, 1, 0, ... is non-zero and no
session exists under it, yet after the OPEN_CONNECT call no session in the
table is tagged with it (the code classifies by the first byte only and
takes the initiator path), refuting the claim for this non-zero KSID. -/
theorem sim_open_connect_responder_counterexample :
    c2_ksid ≠ List.replicate 16 0 ∧
    find_stream zero_table c2_ksid = none ∧
    find_stream (sim_open_connect zero_table 0 cex_qos c2_ksid).streams
      c2_ksid = none ∧
    (sim_open_connect zero_table 0 cex_qos c2_ksid).ret ≠
      QKD_STATUS_SUCCESS := by
  decide

/-- C2 witness: a responder open against a table already holding a session
under the same KSID fails with KSID_IN_USE. -/
theorem sim_open_connect_responder_witness :
    (sim_open_connect c2_used_table 0 cex_qos c2_used_ksid).ret =
      QKD_STATUS_KSID_IN_USE := by
  have h := sim_open_connect_responder c2_used_table 0 cex_qos c2_used_ksid
    (by decide)
  exact (h.1 0 (by decide)).1

def c3_qos : qkd_qos_s := ⟨32, 40000, 5000, 10, 0, 5000, 10⟩

def c3_ksid : List Nat := [7, 0, 0, 0, 0, 0, 0, 0, 0, 0, 0, 0, 0, 0, 0, 0]

def c3_table : List stream_state :=
  ⟨c3_ksid, c3_qos, true, true, 0, 0, false, 0⟩ ::
    List.replicate 15 zero_stream

/-- C3. Two-phase closure: for an open session, CLOSE at an age (in
seconds) strictly below the QoS TTL returns SUCCESS, only marks the slot
pending-close, keeps it in the table and queryable, and an early repeated
CLOSE behaves the same and leaves the table unchanged; CLOSE once the age
reaches the TTL returns SUCCESS, zeroes the slot and frees it. -/
theorem sim_close_ttl
    (streams : List stream_state) (now : Nat) (ksid : List Nat) (slot : Nat)
    (hfind : find_stream streams ksid = some slot)
    (hle : (streams.getD slot zero_stream).creation_time ≤ now)
    (hnow : now < 18446744073709551616) :
    ((now - (streams.getD slot zero_stream).creation_time) / 1000 <
        (streams.getD slot zero_stream).qos.TTL →
      (sim_close streams now ksid).ret = QKD_STATUS_SUCCESS ∧
      (sim_close streams now ksid).streams =
        streams.set slot
          { streams.getD slot zero_stream with pending_close := true } ∧
      find_stream (sim_close streams now ksid).streams ksid = some slot ∧
      (∀ now2, now2 < 18446744073709551616 →
        (streams.getD slot zero_stream).creation_time ≤ now2 →
        (now2 - (streams.getD slot zero_stream).creation_time) / 1000 <
          (streams.getD slot zero_stream).qos.TTL →
        (sim_close (sim_close streams now ksid).streams now2 ksid).ret =
          QKD_STATUS_SUCCESS ∧
        (sim_close (sim_close streams now ksid).streams now2 ksid).streams =
          (sim_close streams now ksid).streams)) ∧
    ((streams.getD slot zero_stream).qos.TTL ≤
        (now - (streams.getD slot zero_stream).creation_time) / 1000 →
      (sim_close streams now ksid).ret = QKD_STATUS_SUCCESS ∧
      (sim_close streams now ksid).streams = streams.set slot zero_stream ∧
      ((sim_close streams now ksid).streams.getD slot zero_stream).in_use
        = false) := by
  obtain ⟨hslot, hu, hk⟩ := find_stream_some_spec hfind
  have hsub : usub64 now (streams.getD slot zero_stream).creation_time =
      now - (streams.getD slot zero_stream).creation_time :=
    usub64_eq_sub hle hnow
  constructor
  · intro hearly
    have hres :
        sim_close streams now ksid =
          ⟨QKD_STATUS_SUCCESS, QKD_STATUS_SUCCESS, streams.set slot
            { streams.getD slot zero_stream with pending_close := true }⟩ := by
      simp only [sim_close, hfind, hsub]
      rw [if_pos hearly]
    rw [hres]
    have hfind1 : find_stream
        (streams.set slot
          { streams.getD slot zero_stream with pending_close := true })
        ksid = some slot := find_stream_set_eq hfind hu hk
    refine ⟨rfl, rfl, hfind1, ?_⟩
    intro now2 hnow2 hle2 hearly2
    have hget1 : (streams.set slot
        { streams.getD slot zero_stream with pending_close := true }).getD
        slot zero_stream =
        { streams.getD slot zero_stream with pending_close := true } :=
      getD_set_self hslot
    have hsub2 : usub64 now2
        (streams.getD slot zero_stream).creation_time =
        now2 - (streams.getD slot zero_stream).creation_time :=
      usub64_eq_sub hle2 hnow2
    have hres2 :
        sim_close (streams.set slot
          { streams.getD slot zero_stream with pending_close := true })
          now2 ksid =
        ⟨QKD_STATUS_SUCCESS, QKD_STATUS_SUCCESS,
          (streams.set slot
            { streams.getD slot zero_stream with
              pending_close := true }).set slot
            { streams.getD slot zero_stream with pending_close := true }⟩ := by
      simp only [sim_close, hfind1, hget1, hsub2]
      rw [if_pos hearly2]
    rw [hres2]
    exact ⟨rfl, by rw [List.set_set]⟩
  · intro hlate
    have hres :
        sim_close streams now ksid =
          ⟨QKD_STATUS_SUCCESS, QKD_STATUS_SUCCESS,
            streams.set slot zero_stream⟩ := by
      simp only [sim_close, hfind, hsub]
      rw [if_neg (by omega)]
    rw [hres]
    refine ⟨rfl, rfl, ?_⟩
    rw [getD_set_self hslot]
    rfl

/-- C3 witness: on a session created at time 0 with TTL 10 seconds, CLOSE
at 1000 ms (age 1 s) returns SUCCESS and keeps the session queryable; a
second early CLOSE at 2000 ms behaves the same; CLOSE at 20000 ms (age
20 s) zeroes and frees the slot. -/
theorem sim_close_ttl_witness :
    (sim_close c3_table 1000 c3_ksid).ret = QKD_STATUS_SUCCESS ∧
    find_stream (sim_close c3_table 1000 c3_ksid).streams c3_ksid =
      some 0 ∧
    (sim_close (sim_close c3_table 1000 c3_ksid).streams 2000 c3_ksid).ret
      = QKD_STATUS_SUCCESS ∧
    (sim_close c3_table 20000 c3_ksid).streams =
      c3_table.set 0 zero_stream := by
  have h1 := sim_close_ttl c3_table 1000 c3_ksid 0 (by decide) (by decide)
    (by decide)
  have h2 := sim_close_ttl c3_table 20000 c3_ksid 0 (by decide) (by decide)
    (by decide)
  have he := h1.1 (by decide)
  refine ⟨he.1, he.2.2.1, (he.2.2.2 2000 (by decide) (by decide)
    (by decide)).1, (h2.2 (by decide)).2.1⟩

/- A successful sim_get_key call always writes the index-derived key into
the caller's buffer. -/
theorem sim_get_key_success_buffer {streams : List stream_state} {now : Nat}
    {ksid : List Nat} {index : Nat} {metadata : Option Nat}
    (h : (sim_get_key streams now ksid index metadata).ret =
      QKD_STATUS_SUCCESS) :
    (sim_get_key streams now ksid index metadata).key_buffer =
      some (generate_key index) := by
  cases hf : find_stream streams ksid with
  | none =>
      simp only [sim_get_key, hf] at h
      simp [QKD_STATUS_NO_CONNECTION, QKD_STATUS_SUCCESS] at h
  | some slot =>
      by_cases hc : can_generate_key (streams.getD slot zero_stream) now
          index = true
      · cases metadata with
        | none =>
            simp only [sim_get_key, hf]
            rw [if_pos hc]
        | some cap =>
            by_cases h0 : 0 < cap
            · by_cases h8 : cap < 8
              · simp only [sim_get_key, hf] at h
                rw [if_pos hc, if_pos h0, if_pos h8] at h
                simp [QKD_STATUS_METADATA_SIZE_ERROR,
                  QKD_STATUS_SUCCESS] at h
              · simp only [sim_get_key, hf]
                rw [if_pos hc, if_pos h0, if_neg h8]
            · simp only [sim_get_key, hf]
              rw [if_pos hc, if_neg h0]
      · simp only [sim_get_key, hf] at h
        rw [if_neg hc] at h
        simp [QKD_STATUS_INSUFFICIENT_KEY, QKD_STATUS_SUCCESS] at h

def c4_qos : qkd_qos_s := ⟨16, 4000000, 0, 0, 0, 0, 3600⟩

def c4_ksid : List Nat := [2, 0, 0, 0, 0, 0, 0, 0, 0, 0, 0, 0, 0, 0, 0, 0]

def c4_table : List stream_state :=
  zero_stream :: ⟨c4_ksid, c4_qos, true, false, 0, 2, false, 0⟩ ::
    List.replicate 14 zero_stream

/-- C4. Determinism of the simulated key material: any two successful
GET_KEY calls with the same index write identical bytes into the caller's
key buffer, namely the SHA-256 digest of the 4-byte index — a function of
the index alone, independent of the table state, session, KSID, time and
metadata argument. -/
theorem sim_get_key_deterministic
    (s1 s2 : List stream_state) (t1 t2 : Nat) (k1 k2 : List Nat)
    (m1 m2 : Option Nat) (index : Nat)
    (h1 : (sim_get_key s1 t1 k1 index m1).ret = QKD_STATUS_SUCCESS)
    (h2 : (sim_get_key s2 t2 k2 index m2).ret = QKD_STATUS_SUCCESS) :
    (sim_get_key s1 t1 k1 index m1).key_buffer =
      (sim_get_key s2 t2 k2 index m2).key_buffer ∧
    (sim_get_key s1 t1 k1 index m1).key_buffer =
      some (generate_key index) ∧
    generate_key index = sha256 (toLE4 index) := by
  have b1 := sim_get_key_success_buffer h1
  have b2 := sim_get_key_success_buffer h2
  exact ⟨b1.trans b2.symm, b1, rfl⟩

/-- C4 witness: two successful calls on different tables, sessions, KSIDs,
times and metadata arguments produce the same key buffer for index 3. -/
theorem sim_get_key_deterministic_witness :
    (sim_get_key c1_table 5 c1_ksid 3 none).key_buffer =
      (sim_get_key c4_table 9 c4_ksid 3 (some 16)).key_buffer := by
  exact (sim_get_key_deterministic c1_table c4_table 5 9 c1_ksid c4_ksid
    none (some 16) 3 (by decide) (by decide)).1

/-- C8. Infeasible QoS is rejected: an OPEN_CONNECT call whose QoS has
Min_bps strictly greater than Max_bps returns QOS_NOT_MET and stores
QOS_NOT_MET through the status out-parameter, on the initiator path
(zero first KSID byte) as well as on the responder path (non-zero first
byte, fresh KSID), whenever a table slot is available so that the call
reaches the QoS check. -/
theorem sim_open_connect_qos_not_met
    (streams : List stream_state) (now : Nat) (qos : qkd_qos_s)
    (ksid : List Nat) (slot : Nat) (hqos : qos.Max_bps < qos.Min_bps) :
    (ksid.headD 0 = 0 → allocate_stream streams = some slot →
      (sim_open_connect streams now qos ksid).ret = QKD_STATUS_QOS_NOT_MET ∧
      (sim_open_connect streams now qos ksid).status =
        QKD_STATUS_QOS_NOT_MET) ∧
    (ksid.headD 0 ≠ 0 → find_stream streams ksid = none →
      allocate_stream streams = some slot →
      (sim_open_connect streams now qos ksid).ret = QKD_STATUS_QOS_NOT_MET ∧
      (sim_open_connect streams now qos ksid).status =
        QKD_STATUS_QOS_NOT_MET) := by
  constructor
  · intro hinit halloc
    simp only [sim_open_connect, halloc]
    rw [if_pos hinit, if_pos hqos]
    exact ⟨rfl, rfl⟩
  · intro hresp hnone halloc
    simp only [sim_open_connect, hnone, halloc]
    rw [if_neg hresp, if_pos hqos]
    exact ⟨rfl, rfl⟩

def c8_qos : qkd_qos_s := ⟨32, 1000, 2000, 0, 0, 0, 3600⟩

/-- C8 witness: an initiator open on the empty table with Min_bps 2000 and
Max_bps 1000 fails with QOS_NOT_MET in both the return value and the
status out-parameter. -/
theorem sim_open_connect_qos_not_met_witness :
    (sim_open_connect zero_table 0 c8_qos (List.replicate 16 0)).ret =
      QKD_STATUS_QOS_NOT_MET ∧
    (sim_open_connect zero_table 0 c8_qos (List.replicate 16 0)).status =
      QKD_STATUS_QOS_NOT_MET := by
  exact (sim_open_connect_qos_not_met zero_table 0 c8_qos
    (List.replicate 16 0) 0 (by decide)).1 (by decide) (by decide)

/-- C9. Metadata capacity contract: for a GET_KEY call that reaches the
metadata stage (session found, index admitted) and supplies a positive
metadata capacity, a capacity below the needed 8 bytes makes the call fail
with the distinct status METADATA_SIZE_ERROR (value 8,
METADATA_SIZE_INSUFFICIENT), reporting the required size 8 through the
caller's metadata-size field with nothing written into the metadata
buffer; a sufficient capacity succeeds with exactly 8 bytes written,
bounded by the capacity. -/
theorem sim_get_key_metadata_contract
    (streams : List stream_state) (now : Nat) (ksid : List Nat)
    (index slot cap : Nat)
    (hfind : find_stream streams ksid = some slot)
    (hcan : index < max_possible_keys (streams.getD slot zero_stream) now)
    (hpos : 0 < cap) :
    (cap < 8 →
      (sim_get_key streams now ksid index (some cap)).ret =
        QKD_STATUS_METADATA_SIZE_ERROR ∧
      (sim_get_key streams now ksid index (some cap)).metadata_size =
        some 8 ∧
      (sim_get_key streams now ksid index (some cap)).metadata_buffer =
        none) ∧
    (8 ≤ cap →
      (sim_get_key streams now ksid index (some cap)).ret =
        QKD_STATUS_SUCCESS ∧
      (sim_get_key streams now ksid index (some cap)).metadata_size =
        some 8 ∧
      ∃ buf,
        (sim_get_key streams now ksid index (some cap)).metadata_buffer =
          some buf ∧ buf.length = 8 ∧ buf.length ≤ cap) := by
  have hc : can_generate_key (streams.getD slot zero_stream) now index
      = true := by
    simp only [can_generate_key, decide_eq_true_eq]
    exact hcan
  constructor
  · intro h8
    simp only [sim_get_key, hfind]
    rw [if_pos hc, if_pos hpos, if_pos h8]
    exact ⟨rfl, rfl, rfl⟩
  · intro h8
    simp only [sim_get_key, hfind]
    rw [if_pos hc, if_pos hpos, if_neg (by omega)]
    refine ⟨rfl, rfl, _, rfl, ?_, ?_⟩
    · simp [toLE4]
    · simp [toLE4]
      omega

/-- C9 witness: on an admitted index, capacity 4 yields
METADATA_SIZE_ERROR with required size 8 reported and no metadata written;
capacity 16 succeeds with 8 bytes written. -/
theorem sim_get_key_metadata_contract_witness :
    (sim_get_key c1_table 5 c1_ksid 3 (some 4)).ret =
      QKD_STATUS_METADATA_SIZE_ERROR ∧
    (sim_get_key c1_table 5 c1_ksid 3 (some 4)).metadata_size = some 8 ∧
    (sim_get_key c1_table 5 c1_ksid 3 (some 16)).ret =
      QKD_STATUS_SUCCESS := by
  have h4 := sim_get_key_metadata_contract c1_table 5 c1_ksid 3 0 4
    (by decide) (by decide) (by decide)
  have h16 := sim_get_key_metadata_contract c1_table 5 c1_ksid 3 0 16
    (by decide) (by decide) (by decide)
  exact ⟨(h4.1 (by decide)).1, (h4.1 (by decide)).2.1,
    (h16.2 (by decide)).1⟩

theorem find_stream_set_of_none {l : List stream_state} {k : List Nat}
    {i : Nat} {st : stream_state} (hnone : find_stream l k = none)
    (hi : i < l.length) (hu : st.in_use = true) (hk : st.key_id = k) :
    find_stream (l.set i st) k = some i := by
  induction l generalizing i with
  | nil => simp at hi
  | cons hd rest ih =>
    rw [find_stream] at hnone
    by_cases hc : hd.in_use = true ∧ hd.key_id = k
    · rw [if_pos hc] at hnone
      cases hnone
    · rw [if_neg hc, Option.map_eq_none'] at hnone
      cases i with
      | zero =>
        simp only [List.set_cons_zero, find_stream]
        rw [if_pos ⟨hu, hk⟩]
      | succ j =>
        simp only [List.set_cons_succ, find_stream]
        rw [if_neg hc, ih hnone (by simpa using hi)]
        rfl

theorem countP_free_set {l : List stream_state} {i : Nat}
    {st : stream_state} (hi : i < l.length)
    (hold : (l.getD i zero_stream).in_use = false)
    (hnew : st.in_use = true) :
    (l.set i st).countP (fun s => !s.in_use) + 1 =
      l.countP (fun s => !s.in_use) := by
  induction l generalizing i with
  | nil => simp at hi
  | cons hd rest ih =>
    cases i with
    | zero =>
      simp only [List.getD_cons_zero] at hold
      simp [List.set_cons_zero, List.countP_cons, hold, hnew]
    | succ j =>
      simp only [List.getD_cons_succ] at hold
      simp only [List.set_cons_succ, List.countP_cons]
      have := ih (by simpa using hi) hold
      omega

/-- C10. A QOS_NOT_MET failure of the full simulated stream backend does
not roll the slot back: after a responder open that fails QOS_NOT_MET the
slot stays in the table with in_use set, keyed by the supplied KSID and
carrying the rejected QoS; one more free slot is consumed; a subsequent
responder open with the same KSID fails KSID_IN_USE; and only a CLOSE
issued once the session age reaches the TTL clears the KSID from the
table. -/
theorem sim_open_connect_qos_failure_keeps_slot
    (streams : List stream_state) (now : Nat) (qos : qkd_qos_s)
    (ksid : List Nat) (slot : Nat) (hresp : ksid.headD 0 ≠ 0)
    (hfind : find_stream streams ksid = none)
    (halloc : allocate_stream streams = some slot)
    (hqos : qos.Max_bps < qos.Min_bps) :
    (sim_open_connect streams now qos ksid).ret = QKD_STATUS_QOS_NOT_MET ∧
    ((sim_open_connect streams now qos ksid).streams.getD slot
        zero_stream).in_use = true ∧
    ((sim_open_connect streams now qos ksid).streams.getD slot
        zero_stream).key_id = ksid ∧
    ((sim_open_connect streams now qos ksid).streams.getD slot
        zero_stream).qos = qos ∧
    ((sim_open_connect streams now qos ksid).streams.countP
        (fun s => !s.in_use)) + 1 =
      streams.countP (fun s => !s.in_use) ∧
    (∀ now2 qos2,
      (sim_open_connect (sim_open_connect streams now qos ksid).streams
        now2 qos2 ksid).ret = QKD_STATUS_KSID_IN_USE) ∧
    (∀ now3, now3 < 18446744073709551616 → now ≤ now3 →
      qos.TTL ≤ (now3 - now) / 1000 →
      find_stream
        (sim_close (sim_open_connect streams now qos ksid).streams now3
          ksid).streams ksid = none) := by
  obtain ⟨hslot, hfree⟩ := allocate_stream_spec halloc
  have hres :
      sim_open_connect streams now qos ksid =
        ⟨QKD_STATUS_QOS_NOT_MET, QKD_STATUS_QOS_NOT_MET,
          streams.set slot
            { streams.getD slot zero_stream with
              key_id := ksid
              is_initiator := false
              in_use := true
              last_index := 0
              creation_time := now
              num_keys := 0
              qos := qos }, ksid⟩ := by
    simp only [sim_open_connect, hfind, halloc]
    rw [if_neg hresp, if_pos hqos]
  rw [hres]
  have hget : ((streams.set slot
      { streams.getD slot zero_stream with
        key_id := ksid
        is_initiator := false
        in_use := true
        last_index := 0
        creation_time := now
        num_keys := 0
        qos := qos }).getD slot zero_stream) =
      { streams.getD slot zero_stream with
        key_id := ksid
        is_initiator := false
        in_use := true
        last_index := 0
        creation_time := now
        num_keys := 0
        qos := qos } := getD_set_self hslot
  have hfind1 : find_stream (streams.set slot
      { streams.getD slot zero_stream with
        key_id := ksid
        is_initiator := false
        in_use := true
        last_index := 0
        creation_time := now
        num_keys := 0
        qos := qos }) ksid = some slot :=
    find_stream_set_of_none hfind hslot rfl rfl
  refine ⟨rfl, by rw [hget], by rw [hget], by rw [hget],
    countP_free_set hslot hfree rfl, ?_, ?_⟩
  · intro now2 qos2
    simp only [sim_open_connect, hfind1]
    rw [if_neg hresp]
  · intro now3 hnow3 hle3 httl
    have hsub : usub64 now3 now = now3 - now := usub64_eq_sub hle3 hnow3
    have hclose :
        sim_close (streams.set slot
          { streams.getD slot zero_stream with
            key_id := ksid
            is_initiator := false
            in_use := true
            last_index := 0
            creation_time := now
            num_keys := 0
            qos := qos }) now3 ksid =
        ⟨QKD_STATUS_SUCCESS, QKD_STATUS_SUCCESS,
          (streams.set slot
            { streams.getD slot zero_stream with
              key_id := ksid
              is_initiator := false
              in_use := true
              last_index := 0
              creation_time := now
              num_keys := 0
              qos := qos }).set slot zero_stream⟩ := by
      simp only [sim_close, hfind1, hget, hsub]
      rw [if_neg (by omega)]
    rw [hclose]
    rw [List.set_set]
    exact find_stream_none_set hfind (by simp [zero_stream])

def c10_ksid : List Nat := [3, 0, 0, 0, 0, 0, 0, 0, 0, 0, 0, 0, 0, 0, 0, 0]

/-- C10 witness: a responder open on the empty table with infeasible QoS
fails QOS_NOT_MET, leaves the session in the table under the supplied
KSID, and a second responder open with the same KSID fails KSID_IN_USE. -/
theorem sim_open_connect_qos_failure_keeps_slot_witness :
    (sim_open_connect zero_table 0 c8_qos c10_ksid).ret =
      QKD_STATUS_QOS_NOT_MET ∧
    ((sim_open_connect zero_table 0 c8_qos c10_ksid).streams.getD 0
        zero_stream).key_id = c10_ksid ∧
    (sim_open_connect (sim_open_connect zero_table 0 c8_qos c10_ksid).streams
      7 cex_qos c10_ksid).ret = QKD_STATUS_KSID_IN_USE := by
  have h := sim_open_connect_qos_failure_keeps_slot zero_table 0 c8_qos
    c10_ksid 0 (by decide) (by decide) (by decide) (by decide)
  exact ⟨h.1, h.2.2.1, h.2.2.2.2.2.1 7 cex_qos⟩

/- Lemmas about the vault-backend batch loop. -/

theorem key_allocs_append (l1 l2 : List qkd_key) :
    key_allocs (l1 ++ l2) = key_allocs l1 ∪ key_allocs l2 := by
  induction l1 with
  | nil => simp [key_allocs]
  | cons e rest ih =>
      simp only [List.cons_append, key_allocs, List.append_eq]
      rw [ih, Finset.insert_union, Finset.insert_union]

theorem cleanup_keys_live (acc : List qkd_key) (a : alloc_state) :
    (cleanup_keys acc a).live = a.live \ key_allocs acc := by
  induction acc generalizing a with
  | nil => simp [cleanup_keys, key_allocs]
  | cons e rest ih =>
      simp only [cleanup_keys, List.foldl_cons] at *
      rw [ih]
      ext x
      simp only [Finset.mem_sdiff, dealloc, Finset.mem_erase, key_allocs,
        Finset.mem_insert]
      tauto

theorem sim_get_key_loop_some_spec (ok : Nat → Bool) (ks : Nat) :
    ∀ (n c : Nat) (acc : List qkd_key) (a : alloc_state)
      (l : List qkd_key) (c1 : Nat) (a1 : alloc_state),
      sim_get_key_loop ok ks n c acc a = (some l, c1, a1) →
      l = acc ++ (List.range n).map (fun k =>
        ⟨a.next + 2 * k, key_id_bytes (c + k), a.next + 2 * k + 1,
          (stored_key_bytes (c + k)).take ks⟩) := by
  intro n
  induction n with
  | zero =>
      intro c acc a l c1 a1 h
      rw [sim_get_key_loop] at h
      cases h
      simp
  | succ n ih =>
      intro c acc a l c1 a1 h
      rw [sim_get_key_loop] at h
      unfold alloc at h
      by_cases hb : ok a.next = true
      · rw [if_pos hb] at h
        simp only at h
        by_cases hb2 : ok (a.next + 1) = true
        · rw [if_pos hb2] at h
          simp only at h
          have := ih (c + 1)
            (acc ++ [⟨a.next, key_id_bytes c, a.next + 1,
              (stored_key_bytes c).take ks⟩])
            ⟨a.next + 1 + 1, insert (a.next + 1) (insert a.next a.live)⟩
            l c1 a1 h
          rw [this, List.range_succ_eq_map]
          simp only [List.map_cons, List.map_map, List.append_assoc,
            List.singleton_append, Nat.mul_zero, Nat.add_zero]
          congr 1
          congr 1
          apply List.map_congr_left
          intro k _
          simp only [Function.comp, Nat.succ_eq_add_one, qkd_key.mk.injEq]
          refine ⟨by omega, ?_, by omega, ?_⟩
          · rw [show c + 1 + k = c + (k + 1) by omega]
          · rw [show c + 1 + k = c + (k + 1) by omega]
        · rw [if_neg hb2] at h
          simp only at h
          cases h
      · rw [if_neg hb] at h
        simp only at h
        cases h

theorem sim_get_key_loop_none_live (ok : Nat → Bool) (ks : Nat) :
    ∀ (n c : Nat) (acc : List qkd_key) (a : alloc_state) (c1 : Nat)
      (a1 : alloc_state),
      (∀ x ∈ a.live, x < a.next) →
      sim_get_key_loop ok ks n c acc a = (none, c1, a1) →
      a1.live = a.live \ key_allocs acc := by
  intro n
  induction n with
  | zero =>
      intro c acc a c1 a1 hwf h
      rw [sim_get_key_loop] at h
      cases h
  | succ n ih =>
      intro c acc a c1 a1 hwf h
      rw [sim_get_key_loop] at h
      unfold alloc at h
      have hnm : a.next ∉ a.live := fun hmem => by
        have := hwf _ hmem
        omega
      by_cases hb : ok a.next = true
      · rw [if_pos hb] at h
        simp only at h
        by_cases hb2 : ok (a.next + 1) = true
        · rw [if_pos hb2] at h
          simp only at h
          have hwf2 : ∀ x ∈ (insert (a.next + 1)
              (insert a.next a.live) : Finset Nat), x < a.next + 1 + 1 := by
            intro x hx
            simp only [Finset.mem_insert] at hx
            rcases hx with hx | hx | hx
            · omega
            · omega
            · have := hwf _ hx
              omega
          have hrec := ih (c + 1)
            (acc ++ [⟨a.next, key_id_bytes c, a.next + 1,
              (stored_key_bytes c).take ks⟩])
            ⟨a.next + 1 + 1, insert (a.next + 1) (insert a.next a.live)⟩
            c1 a1 hwf2 h
          rw [hrec, key_allocs_append]
          ext x
          simp only [Finset.mem_sdiff, Finset.mem_insert, Finset.mem_union,
            key_allocs, Finset.not_mem_empty]
          constructor
          · rintro ⟨hx | hx | hx, hno⟩
            · exact absurd (Or.inr (Or.inl hx.symm)) (by tauto)
            · exact absurd (Or.inr (Or.inl rfl)) (by rw [hx] at hno; tauto)
            · refine ⟨hx, fun hmem => hno (Or.inl hmem)⟩
          · rintro ⟨hx, hno⟩
            have hne1 : x ≠ a.next := fun he => by
              rw [he] at hx
              exact hnm hx
            have hne2 : x ≠ a.next + 1 := fun he => by
              have := hwf _ hx
              omega
            refine ⟨Or.inr (Or.inr hx), ?_⟩
            rintro (hbad | hbad | hbad | hbad)
            · exact hno hbad
            · exact hne1 hbad
            · exact hne2 hbad
            · simp at hbad
        · rw [if_neg hb2] at h
          simp only at h
          cases h
          rw [cleanup_keys_live]
          simp only [dealloc]
          rw [Finset.erase_insert hnm]
      · rw [if_neg hb] at h
        simp only at h
        cases h
        rw [cleanup_keys_live]

theorem key_size_req_pos (request : Option qkd_key_request) :
    0 < key_size_req request := by
  cases request with
  | none => simp [key_size_req]
  | some r =>
      simp only [key_size_req]
      by_cases hs : r.size > 0
      · rw [if_pos hs]
        omega
      · rw [if_neg hs]
        omega

theorem sim_get_key_loop_batch_props (ok : Nat → Bool) (ks : Nat)
    (hks : 0 < ks) (n c : Nat) (a : alloc_state) (l : List qkd_key)
    (c1 : Nat) (a1 : alloc_state)
    (h : sim_get_key_loop ok ks n c [] a = (some l, c1, a1)) :
    l.length = n ∧ (∀ e ∈ l, e.key_ID ≠ [] ∧ e.key ≠ []) ∧
      (l.map (fun e => e.key_ID)).Nodup := by
  have hl := sim_get_key_loop_some_spec ok ks n c [] a l c1 a1 h
  rw [hl]
  refine ⟨by rw [List.nil_append, List.length_map, List.length_range],
    ?_, ?_⟩
  · intro e he
    simp only [List.nil_append, List.mem_map, List.mem_range] at he
    obtain ⟨k, _, hk⟩ := he
    rw [← hk]
    refine ⟨key_id_bytes_ne_nil (c + k), ?_⟩
    intro hnil
    have hlen := congrArg List.length hnil
    simp only [List.length_take, stored_key_bytes, List.length_append,
      List.length_replicate, List.length_nil] at hlen
    omega
  · have hinj : Function.Injective
        (fun k : Nat => key_id_bytes (c + k)) := by
      intro x y hxy
      have := key_id_bytes_injective hxy
      omega
    simp only [List.nil_append, List.map_map, Function.comp]
    exact List.Nodup.map hinj (List.nodup_range _)

/-- C5. Vault GET_KEY batch shape: a successful call returns a container
with key_count = N and exactly N entries, each with a non-empty identifier
string and non-empty key material, the identifiers pairwise distinct —
where N is the requested number (request present with positive number) or
the default 1 (request absent). -/
theorem sim_get_key_014_batch
    (ok : Nat → Bool) (c : Nat) (request : Option qkd_key_request)
    (a : alloc_state) (N : Nat)
    (hN : (request = none ∧ N = 1) ∨
      (∃ r, request = some r ∧ (N : Int) = r.number ∧ 0 < r.number))
    (hok : (sim_get_key_014 ok c request a).status = QKD_STATUS_OK) :
    ∃ l, (sim_get_key_014 ok c request a).container.keys = some l ∧
      (sim_get_key_014 ok c request a).container.key_count = some N ∧
      l.length = N ∧
      (∀ e ∈ l, e.key_ID ≠ [] ∧ e.key ≠ []) ∧
      (l.map (fun e => e.key_ID)).Nodup := by
  have hNn : (num_keys_req request).toNat = N := by
    rcases hN with ⟨hreq, hN1⟩ | ⟨r, hreq, hNr, hpos⟩
    · rw [hreq, hN1]
      rfl
    · rw [hreq]
      simp only [num_keys_req]
      rw [if_pos hpos, ← hNr]
      exact Int.toNat_natCast N
  by_cases hb : ok a.next = true
  · have halloc : alloc ok a =
        (some a.next, ⟨a.next + 1, insert a.next a.live⟩) := by
      simp [alloc, hb]
    cases hloop : sim_get_key_loop ok (key_size_req request)
        (num_keys_req request).toNat c []
        ⟨a.next + 1, insert a.next a.live⟩ with
    | mk fst rest =>
        cases fst with
        | none =>
            simp only [sim_get_key_014, halloc, hloop] at hok
            simp [QKD_STATUS_SERVER_ERROR, QKD_STATUS_OK] at hok
        | some entries =>
            obtain ⟨c1, a1⟩ := rest
            have hprops := sim_get_key_loop_batch_props ok
              (key_size_req request) (key_size_req_pos request)
              (num_keys_req request).toNat c
              ⟨a.next + 1, insert a.next a.live⟩ entries c1 a1 hloop
            refine ⟨entries, ?_, ?_, ?_, hprops.2.1, hprops.2.2⟩
            · simp only [sim_get_key_014, halloc, hloop]
            · simp only [sim_get_key_014, halloc, hloop]
              rw [hNn]
            · rw [hprops.1, hNn]
  · have halloc : alloc ok a = (none, ⟨a.next + 1, a.live⟩) := by
      simp [alloc, hb]
    simp only [sim_get_key_014, halloc] at hok
    simp [QKD_STATUS_SERVER_ERROR, QKD_STATUS_OK] at hok

def all_ok : Nat → Bool := fun _ => true

/-- C5 witness: with every allocation succeeding, a request for two
32-byte keys returns a container with key_count 2, two entries, non-empty
distinct identifiers and non-empty material. -/
theorem sim_get_key_014_batch_witness :
    (sim_get_key_014 all_ok 0 (some ⟨2, 32⟩) ⟨0, ∅⟩).container.key_count =
      some 2 := by
  obtain ⟨l, h1, h2, h3, h4, h5⟩ := sim_get_key_014_batch all_ok 0
    (some ⟨2, 32⟩) ⟨0, ∅⟩ 2
    (Or.inr ⟨⟨2, 32⟩, rfl, by decide, by decide⟩) (by decide)
  exact h2

/-- C6. Rollback on partial allocation failure: if the container key array
was allocated but some entry's identifier or key-material allocation fails
while the batch is being built, the call returns SERVER_ERROR with a
container whose key array is null and whose key_count is 0, and every
allocation made during the call — the built entries and the key array —
has been released, so the set of live allocations is exactly what it was
before the call. -/
theorem sim_get_key_014_rollback
    (ok : Nat → Bool) (c : Nat) (request : Option qkd_key_request)
    (a : alloc_state) (hwf : ∀ x ∈ a.live, x < a.next)
    (harr : ok a.next = true)
    (hfail : (sim_get_key_014 ok c request a).status =
      QKD_STATUS_SERVER_ERROR) :
    (sim_get_key_014 ok c request a).container.keys = none ∧
    (sim_get_key_014 ok c request a).container.key_count = some 0 ∧
    (sim_get_key_014 ok c request a).alloc_st.live = a.live := by
  have halloc : alloc ok a =
      (some a.next, ⟨a.next + 1, insert a.next a.live⟩) := by
    simp [alloc, harr]
  have hnm : a.next ∉ a.live := fun hmem => by
    have := hwf _ hmem
    omega
  cases hloop : sim_get_key_loop ok (key_size_req request)
      (num_keys_req request).toNat c []
      ⟨a.next + 1, insert a.next a.live⟩ with
  | mk fst rest =>
      cases fst with
      | some entries =>
          simp only [sim_get_key_014, halloc, hloop] at hfail
          simp [QKD_STATUS_SERVER_ERROR, QKD_STATUS_OK] at hfail
      | none =>
          obtain ⟨c1, a1⟩ := rest
          have hwf1 : ∀ x ∈ (insert a.next a.live : Finset Nat),
              x < a.next + 1 := by
            intro x hx
            simp only [Finset.mem_insert] at hx
            rcases hx with hx | hx
            · omega
            · have := hwf _ hx
              omega
          have hlive := sim_get_key_loop_none_live ok
            (key_size_req request) (num_keys_req request).toNat c []
            ⟨a.next + 1, insert a.next a.live⟩ c1 a1 hwf1 hloop
          simp only [key_allocs, Finset.sdiff_empty] at hlive
          refine ⟨?_, ?_, ?_⟩
          · simp only [sim_get_key_014, halloc, hloop]
          · simp only [sim_get_key_014, halloc, hloop]
          · simp only [sim_get_key_014, halloc, hloop, dealloc]
            rw [hlive]
            exact Finset.erase_insert hnm

def c6_oracle : Nat → Bool := fun n => !(n == 2)

/-- C6 witness: with the allocation of the first entry's key material
failing (serial 2: array 0, identifier 1, key 2), a request for two keys
comes back with SERVER_ERROR, a null key array, key_count 0, and the empty
initial live-allocation set restored. -/
theorem sim_get_key_014_rollback_witness :
    (sim_get_key_014 c6_oracle 0 (some ⟨2, 32⟩) ⟨0, ∅⟩).container.keys =
      none ∧
    (sim_get_key_014 c6_oracle 0 (some ⟨2, 32⟩) ⟨0, ∅⟩).container.key_count
      = some 0 ∧
    (sim_get_key_014 c6_oracle 0 (some ⟨2, 32⟩) ⟨0, ∅⟩).alloc_st.live =
      (∅ : Finset Nat) := by
  exact sim_get_key_014_rollback c6_oracle 0 (some ⟨2, 32⟩) ⟨0, ∅⟩
    (by simp) (by decide) (by decide)

/- Lemmas for the QoS wire round trip. -/

theorem dropWhile_zero_replicate_append (k : Nat) (l : List Nat) :
    (List.replicate k 0 ++ l).dropWhile (fun b => b == 0) =
      l.dropWhile (fun b => b == 0) := by
  induction k with
  | zero => simp
  | succ k ih => simp [List.replicate_succ, List.dropWhile_cons, ih]

theorem strip_nul_ljust256 (m : List Nat)
    (hhead : ∀ b, m.head? = some b → b ≠ 0)
    (hlast : ∀ b, m.getLast? = some b → b ≠ 0) :
    strip_nul (ljust256 m) = m := by
  cases m with
  | nil =>
      unfold strip_nul ljust256
      rw [List.nil_append]
      rw [← List.append_nil (List.replicate (256 - List.length []) 0),
        dropWhile_zero_replicate_append]
      simp
  | cons x mrest =>
      have hx : x ≠ 0 := hhead x rfl
      have hxb : (x == 0) = false := by simp [hx]
      unfold strip_nul ljust256
      rw [List.cons_append, List.dropWhile_cons, hxb]
      simp only [Bool.false_eq_true, if_false]
      rw [← List.cons_append, List.reverse_append, List.reverse_replicate,
        dropWhile_zero_replicate_append]
      have hnil : (x :: mrest).reverse ≠ [] := by simp
      cases hr : (x :: mrest).reverse with
      | nil => exact absurd hr hnil
      | cons y t =>
          have hy : (x :: mrest).getLast? = some y := by
            rw [← List.head?_reverse, hr]
            rfl
          have hyb : (y == 0) = false := by
            simp [hlast y hy]
          rw [List.dropWhile_cons, hyb]
          simp only [Bool.false_eq_true, if_false]
          rw [← hr, List.reverse_reverse]

/-- C7. Amended QoS wire round trip: encoding a QoS block as the seven
big-endian 32-bit fields followed by the 256-byte zero-padded mime type,
then decoding, reproduces all seven numeric fields exactly, and reproduces
the mime-type string exactly provided it fits the fixed field and has no
leading or trailing NUL byte (in particular, any NUL-free mime type) —
the decoder strips NUL bytes from both ends, so leading or trailing NULs
of the original string are lost. -/
theorem construct_parse_qos_roundtrip (q : qos_wire)
    (h1 : q.Key_chunk_size < 4294967296)
    (h2 : q.Max_bps < 4294967296)
    (h3 : q.Min_bps < 4294967296)
    (h4 : q.Jitter < 4294967296)
    (h5 : q.Priority < 4294967296)
    (h6 : q.Timeout < 4294967296)
    (h7 : q.TTL < 4294967296)
    (hlen : q.Metadata_mimetype.length ≤ 256)
    (hhead : ∀ b, q.Metadata_mimetype.head? = some b → b ≠ 0)
    (hlast : ∀ b, q.Metadata_mimetype.getLast? = some b → b ≠ 0) :
    parse_qos (construct_qos q) = q := by
  obtain ⟨f1, f2, f3, f4, f5, f6, f7, mime⟩ := q
  simp only at h1 h2 h3 h4 h5 h6 h7 hlen hhead hlast
  have hlen4 : ∀ n : Nat, (toBE4 n).length = 4 := fun n => rfl
  have hassoc : construct_qos ⟨f1, f2, f3, f4, f5, f6, f7, mime⟩ =
      toBE4 f1 ++ (toBE4 f2 ++ (toBE4 f3 ++ (toBE4 f4 ++ (toBE4 f5 ++
        (toBE4 f6 ++ (toBE4 f7 ++ ljust256 mime)))))) := by
    simp [construct_qos, List.append_assoc]
  set data := construct_qos ⟨f1, f2, f3, f4, f5, f6, f7, mime⟩ with hdata
  have e4 : data.drop 4 = toBE4 f2 ++ (toBE4 f3 ++ (toBE4 f4 ++ (toBE4 f5
      ++ (toBE4 f6 ++ (toBE4 f7 ++ ljust256 mime))))) := by
    rw [hassoc]
    exact List.drop_left' (hlen4 f1)
  have e8 : data.drop 8 = toBE4 f3 ++ (toBE4 f4 ++ (toBE4 f5 ++ (toBE4 f6
      ++ (toBE4 f7 ++ ljust256 mime)))) := by
    rw [show (8 : Nat) = 4 + 4 from rfl, ← List.drop_drop, e4]
    exact List.drop_left' (hlen4 f2)
  have e12 : data.drop 12 = toBE4 f4 ++ (toBE4 f5 ++ (toBE4 f6 ++
      (toBE4 f7 ++ ljust256 mime))) := by
    rw [show (12 : Nat) = 8 + 4 from rfl, ← List.drop_drop, e8]
    exact List.drop_left' (hlen4 f3)
  have e16 : data.drop 16 = toBE4 f5 ++ (toBE4 f6 ++ (toBE4 f7 ++
      ljust256 mime)) := by
    rw [show (16 : Nat) = 12 + 4 from rfl, ← List.drop_drop, e12]
    exact List.drop_left' (hlen4 f4)
  have e20 : data.drop 20 = toBE4 f6 ++ (toBE4 f7 ++ ljust256 mime) := by
    rw [show (20 : Nat) = 16 + 4 from rfl, ← List.drop_drop, e16]
    exact List.drop_left' (hlen4 f5)
  have e24 : data.drop 24 = toBE4 f7 ++ ljust256 mime := by
    rw [show (24 : Nat) = 20 + 4 from rfl, ← List.drop_drop, e20]
    exact List.drop_left' (hlen4 f6)
  have e28 : data.drop 28 = ljust256 mime := by
    rw [show (28 : Nat) = 24 + 4 from rfl, ← List.drop_drop, e24]
    exact List.drop_left' (hlen4 f7)
  have t0 : (data.drop 0).take 4 = toBE4 f1 := by
    rw [List.drop_zero, hassoc]
    exact List.take_left' (hlen4 f1)
  have t4 : (data.drop 4).take 4 = toBE4 f2 := by
    rw [e4]
    exact List.take_left' (hlen4 f2)
  have t8 : (data.drop 8).take 4 = toBE4 f3 := by
    rw [e8]
    exact List.take_left' (hlen4 f3)
  have t12 : (data.drop 12).take 4 = toBE4 f4 := by
    rw [e12]
    exact List.take_left' (hlen4 f4)
  have t16 : (data.drop 16).take 4 = toBE4 f5 := by
    rw [e16]
    exact List.take_left' (hlen4 f5)
  have t20 : (data.drop 20).take 4 = toBE4 f6 := by
    rw [e20]
    exact List.take_left' (hlen4 f6)
  have t24 : (data.drop 24).take 4 = toBE4 f7 := by
    rw [e24]
    exact List.take_left' (hlen4 f7)
  simp only [parse_qos, t0, t4, t8, t12, t16, t20, t24, e28,
    qos_wire.mk.injEq]
  refine ⟨fromBE4_toBE4 h1, fromBE4_toBE4 h2, fromBE4_toBE4 h3,
    fromBE4_toBE4 h4, fromBE4_toBE4 h5, fromBE4_toBE4 h6,
    fromBE4_toBE4 h7, ?_⟩
  exact strip_nul_ljust256 mime hhead hlast

def c7_qos : qos_wire := ⟨1, 2, 3, 4, 5, 6, 7, [97, 0]⟩

/-- C7 counterexample: the mime-type byte string 97, 0 (the character a
followed by a NUL) fits the 256-byte field, yet decoding the encoded block
strips the trailing NUL and returns the mime type 97 alone, so the
round trip does not reproduce the mime-type string exactly. -/
theorem construct_parse_qos_counterexample :
    c7_qos.Metadata_mimetype.length ≤ 256 ∧
    parse_qos (construct_qos c7_qos) ≠ c7_qos ∧
    parse_qos (construct_qos c7_qos) =
      ⟨1, 2, 3, 4, 5, 6, 7, [97]⟩ := by
  decide

def c7_ok_qos : qos_wire :=
  ⟨512, 40000, 5000, 10, 0, 5000, 3600,
    [97, 112, 112, 108, 105, 99, 97, 116, 105, 111, 110, 47, 106, 115,
     111, 110]⟩

/-- C7 witness: a QoS block with the NUL-free mime type application/json
round-trips exactly through the wire encoding. -/
theorem construct_parse_qos_roundtrip_witness :
    parse_qos (construct_qos c7_ok_qos) = c7_ok_qos := by
  exact construct_parse_qos_roundtrip c7_ok_qos (by decide) (by decide)
    (by decide) (by decide) (by decide) (by decide) (by decide)
    (by decide) (by decide) (by decide)
